import Mathlib

/-!
Verification of the resumable ClickHouse events backfill pipeline
(`scripts/clickhouse-backfill/backfill_events.py`).

The development shallowly embeds the parts of the script that the checked
properties are about:

* the Python-dict metadata model and the record transformer
  `transform_observation_to_event`;
* the keyset-paginated streaming loop `stream_observations`
  (the query `WHERE (project_id, type, toDate(start_time), id) >= cursor
  ORDER BY project_id, type, toDate(start_time), id LIMIT batch_size`,
  the per-row transform with row-level error recovery, the batch insert,
  and the checkpointing of the cursor after each non-empty batch);
* the retrying batch writer `insert_events_batch`;
* the file-backed cursor store `load_cursor` / `save_cursor`.

Strings that participate in ordering (the components of the composite sort
key) are modeled as their character lists (`List Char`), ordered
lexicographically, matching ClickHouse's ordering of `String` columns; the
date component of the key is abstracted to a `Nat` (order-isomorphic to
calendar dates of observations). Rows of the `observations` table are
identified with their composite sort keys: the claims under study only
depend on how the loop visits rows, and distinct rows in one partition have
distinct keys (the key contains the row id). The streaming loop is
parameterized by an arbitrary linearly ordered key type; `ObsKey` is the
instantiation used by the program.
-/

/-! ## Python values and dict model -/

/-- A scalar Python value stored in a metadata dict (string, int or bool).
These are the payloads that `str(v)` is applied to when the transformer
flattens the merged metadata into `metadata_raw_values`. -/
inductive PyVal : Type
  | s (v : String)
  | i (n : Int)
  | b (v : Bool)
deriving DecidableEq, Repr

/-- Python's `str(v)` on a metadata value: strings unchanged, ints in
decimal, booleans rendered `True` / `False`. -/
def pyStr : PyVal → String
  | .s v => v
  | .i n => toString n
  | .b v => if v then "True" else "False"

/-- Python dicts are modeled as association lists in insertion order with
unique keys (a Python dict can never hold a duplicate key).
`dictMerge a b` models the merge expression
`{**a, **b}` from `transform_observation_to_event`: the keys of `a` in
their order, with `b`'s value taking precedence on a collision, followed by
the keys of `b` that are absent from `a`, in their order. -/
def dictMerge {α : Type} (a b : List (String × α)) : List (String × α) :=
  a.map (fun kv => (kv.1, (List.lookup kv.1 b).getD kv.2)) ++
    b.filter (fun kv => (List.lookup kv.1 a).isNone)

/-- Python truthiness test `not x` for an optional string (`None` and the
empty string are falsy); `is_root = not parent_observation_id or
parent_observation_id == ""` in the transformer reduces to this. -/
def pyFalsyStr : Option String → Bool
  | none => true
  | some s => decide (s = "")

/-- Python's `x or y` for an optional string `x`: yields `y` when `x` is
`None` or empty, else the string itself (used for
`parent_observation_id or f"t-{trace_id}"`). -/
def pyOrStr (x : Option String) (y : String) : String :=
  match x with
  | none => y
  | some s => if s = "" then y else s

/-! ## Record transformer (`transform_observation_to_event`) -/

/-- One value of the in-memory side table `trace_attrs`, as built by
`load_trace_attrs`: nullable source fields are already normalized to
empty-string / `False` / empty-dict defaults, and `metadata` already
contains the injected `trace_tags` entry when the trace had tags. -/
structure TraceAttr : Type where
  user_id : String
  session_id : String
  metadata : List (String × PyVal)
  public : Bool
  bookmarked : Bool
  release : String
deriving DecidableEq, Repr

/-- The fields of an `observations` row that the checked transformer rules
read: identity (`project_id`, `id`, `trace_id`), the nullable parent
reference, and the row-level metadata dict (`None` when the column is
NULL).  The remaining payload fields (timings, usage/cost maps, texts) are
copied or coerced independently of these rules and are not modeled. -/
structure ObsRow : Type where
  project_id : String
  obs_id : String
  trace_id : String
  parent_observation_id : Option String
  metadata : Option (List (String × PyVal))
deriving DecidableEq, Repr

/-- The derived fields of the destination `events` record produced by
`transform_observation_to_event`. -/
structure EventRec : Type where
  project_id : String
  trace_id : String
  span_id : String
  parent_span_id : String
  bookmarked : Bool
  metadata_names : List String
  metadata_raw_values : List String
  source : String
deriving DecidableEq, Repr

/-- `transform_observation_to_event`: the pure transformer.  `trace_attrs`
is the in-memory side table keyed by `(project_id, trace_id)`.
Mirrors the source:
* `parent_span_id` is empty iff the row id equals the synthetic root id
  `"t-" + trace_id`; otherwise it is
  `parent_observation_id or f"t-{trace_id}"`;
* `bookmarked = trace_attr.get("bookmarked", False) and is_root` where
  `is_root` tests that the row has no parent reference;
* `merged_metadata = {**obs_metadata, **trace_metadata}` flattened into the
  two parallel columns `metadata_names` / `metadata_raw_values`;
* `source = "otel"` iff the row's own metadata contains the key
  `"resourceAttributes"`. -/
def transform_observation_to_event
    (trace_attrs : List ((String × String) × TraceAttr)) (row : ObsRow) : EventRec :=
  let trace_attr := List.lookup (row.project_id, row.trace_id) trace_attrs
  let parent_span_id :=
    if row.obs_id = "t-" ++ row.trace_id then ""
    else pyOrStr row.parent_observation_id ("t-" ++ row.trace_id)
  let is_root := pyFalsyStr row.parent_observation_id
  let bookmarked := (match trace_attr with | some a => a.bookmarked | none => false) && is_root
  let obs_metadata := row.metadata.getD []
  let trace_metadata := match trace_attr with | some a => a.metadata | none => []
  let merged_metadata := dictMerge obs_metadata trace_metadata
  let source :=
    if (List.lookup "resourceAttributes" obs_metadata).isSome then "otel" else "ingestion-api"
  { project_id := row.project_id
    trace_id := row.trace_id
    span_id := row.obs_id
    parent_span_id := parent_span_id
    bookmarked := bookmarked
    metadata_names := merged_metadata.map (fun kv => kv.1)
    metadata_raw_values := merged_metadata.map (fun kv => pyStr kv.2)
    source := source }

/-! ## Keyset-paginated streaming loop (`stream_observations`) -/

/-- An ordered string column value, modeled as its character list with the
lexicographic order (matching ClickHouse's `String` ordering). -/
abbrev SKey : Type := List Char

/-- The composite sort key of an observation:
`(project_id, type, toDate(start_time), id)`, compared lexicographically
(as by the SQL tuple comparison and `ORDER BY`); the date is abstracted to
a `Nat`. -/
abbrev ObsKey : Type := SKey ×ₗ SKey ×ₗ Nat ×ₗ SKey

/-- Build an `ObsKey` from its four components. -/
def mkKey (p t : SKey) (d : Nat) (i : SKey) : ObsKey :=
  toLex (p, toLex (t, toLex (d, i)))

instance (priority := 2000) : BEq ObsKey :=
  @instBEqOfDecidableEq ObsKey (@instDecidableEq_mathlib ObsKey _)

/-- The paginated source query of `stream_observations`:
rows of the partition (given sorted ascending by composite key, as produced
by `ORDER BY project_id, type, toDate(start_time), id`) satisfying
`key >= cursor`, capped at `limit` (`LIMIT {limit}`).  Note the comparison
is `>=`, not `>`. -/
def fetch_observations_page {K : Type} [LinearOrder K]
    (rows : List K) (cursor : K) (limit : Nat) : List K :=
  (rows.filter (fun r => decide (cursor ≤ r))).take limit

/-- Observable outcome of a run of the streaming loop: the rows
successfully transformed (appended to batches), in processing order; the
successive values persisted by `save_cursor` after each non-empty batch;
the total `events_inserted` counter; and the final in-memory cursor. -/
structure RunResult (K : Type) : Type where
  processed : List K
  savedCursors : List K
  inserted : Nat
  finalCursor : K
deriving DecidableEq, Repr

/-- The `while True` loop of `stream_observations`, starting from cursor
`c`.  `ok r` tells whether the transform of row `r` succeeds (an exception
is caught, counted and the row skipped); `dry_run` makes
`insert_events_batch` return before inserting (so `events_inserted` stays
unchanged) while the checkpoint is still saved.  Each iteration: fetch a
page; stop if it is empty; transform each row, moving the in-memory cursor
to each successfully transformed row's key; if the batch is non-empty,
insert it (assumed to succeed; the retry behavior is modeled separately by
`insert_events_batch`) and save the cursor; stop if the page was short.
`fuel` bounds the number of iterations: a result `none` means the loop ran
longer than `fuel` iterations (and `none` for every fuel means it never
terminates). -/
def stream_observations {K : Type} [LinearOrder K] (rows : List K) (ok : K → Bool)
    (dry_run : Bool) (batch_size : Nat) : Nat → K → Option (RunResult K)
  | 0, _ => none
  | fuel + 1, c =>
    let page := fetch_observations_page rows c batch_size
    if page.isEmpty then
      some { processed := [], savedCursors := [], inserted := 0, finalCursor := c }
    else
      let batch := page.filter ok
      let c' := (batch.getLast?).getD c
      let saved := if batch.isEmpty then [] else [c']
      let ins := if batch.isEmpty then 0 else if dry_run then 0 else batch.length
      if page.length < batch_size then
        some { processed := batch, savedCursors := saved, inserted := ins, finalCursor := c' }
      else
        (stream_observations rows ok dry_run batch_size fuel c').map fun r =>
          { processed := batch ++ r.processed
            savedCursors := saved ++ r.savedCursors
            inserted := ins + r.inserted
            finalCursor := r.finalCursor }

/-! ## Batched writer with retry (`insert_events_batch`) -/

/-- Observable outcome of one call to `insert_events_batch`: how many times
the ClickHouse insert was attempted, how many attempts succeeded (the
function returns on the first success), the increment of the
`events_inserted` counter, the `time.sleep` backoff delays in order, and
whether the call re-raised the insert error (aborting the run). -/
structure InsertResult : Type where
  attemptsMade : Nat
  successes : Nat
  insertedEvents : Nat
  sleeps : List Nat
  raised : Bool
deriving DecidableEq, Repr

/-- The `for attempt in range(max_retries)` retry loop of
`insert_events_batch`: `remaining` iterations of the range are left and the
current 0-based attempt index is `attempt` (the caller starts it with
`remaining = max_retries`, `attempt = 0`; the test
`attempt < max_retries - 1` of the source is equivalent to at least two
iterations remaining).  `outcome n` tells whether the `n`-th insert attempt
succeeds.  On success the function records the inserted events and
returns; on failure it sleeps `2 ** attempt` seconds and retries unless
this was the last iteration, in which case it re-raises. -/
def insert_attempt_loop (outcome : Nat → Bool) (batch_len : Nat) :
    Nat → Nat → InsertResult
  | _, 0 =>
    { attemptsMade := 0, successes := 0, insertedEvents := 0, sleeps := [], raised := false }
  | attempt, remaining + 1 =>
    if outcome attempt then
      { attemptsMade := 1, successes := 1, insertedEvents := batch_len, sleeps := [],
        raised := false }
    else if remaining = 0 then
      { attemptsMade := 1, successes := 0, insertedEvents := 0, sleeps := [], raised := true }
    else
      let rest := insert_attempt_loop outcome batch_len (attempt + 1) remaining
      { attemptsMade := rest.attemptsMade + 1, successes := rest.successes,
        insertedEvents := rest.insertedEvents, sleeps := 2 ^ attempt :: rest.sleeps,
        raised := rest.raised }

/-- `insert_events_batch`: returns immediately in dry-run mode and on an
empty batch; otherwise runs the `range(max_retries)` retry loop from
attempt 0 (with `max_retries = 0` the loop body never runs: no attempt, no
raise). -/
def insert_events_batch (dry_run : Bool) (batch_len : Nat) (outcome : Nat → Bool)
    (max_retries : Nat) : InsertResult :=
  if dry_run then
    { attemptsMade := 0, successes := 0, insertedEvents := 0, sleeps := [], raised := false }
  else if batch_len = 0 then
    { attemptsMade := 0, successes := 0, insertedEvents := 0, sleeps := [], raised := false }
  else
    insert_attempt_loop outcome batch_len 0 max_retries

/-- The checkpoint behavior of the streaming loop around one non-empty
batch (`if batch: insert_events_batch(batch); save_cursor(...)`): the
number of times `save_cursor` runs for that batch.  When
`insert_events_batch` re-raises, the exception propagates and the save is
never reached. -/
def checkpoint_saves_for_batch (dry_run : Bool) (batch_len : Nat) (outcome : Nat → Bool)
    (max_retries : Nat) : Nat :=
  if batch_len = 0 then 0
  else if (insert_events_batch dry_run batch_len outcome max_retries).raised then 0
  else 1

/-! ## Cursor store (`load_cursor` / `save_cursor`) -/

/-- A calendar date as handled by `datetime.strptime(s, "%Y-%m-%d").date()`
and `date.strftime("%Y-%m-%d")`. -/
structure PDate : Type where
  year : Nat
  month : Nat
  day : Nat
deriving DecidableEq, Repr

/-- The in-memory cursor tuple `(project_id, type, date, id)`. -/
abbrev CursorTuple : Type := String × String × PDate × String

/-- `get_minimum_cursor`: `("", "", date(1970, 1, 1), "")`. -/
def get_minimum_cursor : CursorTuple :=
  ("", "", ⟨1970, 1, 1⟩, "")

/-- Split a character list on `'-'` (the separators of the `%Y-%m-%d`
format). -/
def splitDashes : List Char → List (List Char)
  | [] => [[]]
  | c :: rest =>
    let r := splitDashes rest
    if c = '-' then [] :: r
    else
      match r with
      | [] => [[c]]
      | h :: t => (c :: h) :: t

/-- Parse a non-empty all-digit character list as a decimal number. -/
def charsToNat? (cs : List Char) : Option Nat :=
  if cs = [] then none
  else if cs.all Char.isDigit then
    some (cs.foldl (fun a c => a * 10 + (c.toNat - 48)) 0)
  else none

/-- Leap-year rule used by `datetime` for day-of-month validation. -/
def isLeapYear (y : Nat) : Bool :=
  (y % 4 = 0 && decide (y % 100 ≠ 0)) || y % 400 = 0

/-- Number of days in a month, as validated by `datetime`. -/
def daysInMonth (y m : Nat) : Nat :=
  if m = 2 then (if isLeapYear y then 29 else 28)
  else if m = 4 ∨ m = 6 ∨ m = 9 ∨ m = 11 then 30
  else 31

/-- The day field of `%d`, per CPython's pattern
`3[01]|[12]\d|0[1-9]|[1-9]| [1-9]`: one or two digits valued 1 to 31, or
exactly one space followed by a non-zero digit. -/
def parseDay (cs : List Char) : Option Nat :=
  match cs with
  | [' ', c] => if c.isDigit ∧ c ≠ '0' then some (c.toNat - 48) else none
  | _ =>
    match charsToNat? cs with
    | some d =>
      if (cs.length = 1 ∨ cs.length = 2) ∧ 1 ≤ d ∧ d ≤ 31 then some d else none
    | none => none

/-- `datetime.strptime(s, "%Y-%m-%d").date()` as implemented by CPython:
the format compiles to the anchored pattern
`\d\d\d\d - (1[0-2]|0[1-9]|[1-9]) - (3[01]|[12]\d|0[1-9]|[1-9]| [1-9])`
matched against the whole string (the three fields cannot contain a dash,
so the dash split below is exact), after which `datetime(...)`
range-checks the values.  Consequences reproduced here: the year is
exactly four digits and at least 1 (`"70-01-01"` and `"0000-01-01"`
raise), the month is one or two digits valued 1 to 12 with no space-padded
form, the day may be one space-padded (`" 5"` parses, `" 0"` raises), and
the day must exist in the month.  Any other input raises (modeled as
`none`). -/
def parseDate (s : String) : Option PDate :=
  match splitDashes s.data with
  | [ys, ms, ds] =>
    match charsToNat? ys, charsToNat? ms, parseDay ds with
    | some y, some m, some d =>
      if ys.length = 4 ∧ 1 ≤ y ∧ (ms.length = 1 ∨ ms.length = 2) ∧
          1 ≤ m ∧ m ≤ 12 ∧ d ≤ daysInMonth y m then
        some ⟨y, m, d⟩
      else none
    | _, _, _ => none
  | _ => none

/-- Left-pad a decimal rendering with zeros to width `w`
(`strftime` zero-pads `%Y` to four and `%m`, `%d` to two digits). -/
def padZero (w n : Nat) : String :=
  let s := toString n
  ⟨List.replicate (w - s.length) '0'⟩ ++ s

/-- `date.strftime("%Y-%m-%d")`. -/
def formatDate (d : PDate) : String :=
  padZero 4 d.year ++ "-" ++ padZero 2 d.month ++ "-" ++ padZero 2 d.day

/-- The JSON object stored under one partition key in the cursor file, as
read back by `load_cursor`: each field may be absent (`.get` default
applies); `updated_at` is written by `save_cursor` and ignored by
`load_cursor`. -/
structure EntryRaw : Type where
  project_id : Option String
  obs_type : Option String
  dateStr : Option String
  obs_id : Option String
  updated_at : Option String
deriving DecidableEq, Repr

/-- The JSON value found under a partition key: either a falsy value
(e.g. the empty object, which `if not partition_cursor` treats as no
cursor) or a non-empty object. -/
inductive EntryVal : Type
  | emptyObj
  | entry (e : EntryRaw)
deriving DecidableEq, Repr

/-- The state of the cursor file as seen by one `load_cursor` /
`save_cursor` call: absent, unreadable-or-unparseable (`json.load`
raises), or a parsed JSON mapping from partition id to entry, in key
order. -/
inductive FileState : Type
  | missing
  | corrupt
  | valid (entries : List (String × EntryVal))
deriving DecidableEq, Repr

/-- `load_cursor`: returns the persisted cursor of `partition`, or
`get_minimum_cursor` when the file is missing, unparseable, has no (or a
falsy) entry for the partition, or the entry's date string does not parse
(the exception is caught and logged).  Total: the Python function never
raises. -/
def load_cursor (partition : String) (fs : FileState) : CursorTuple :=
  match fs with
  | .missing => get_minimum_cursor
  | .corrupt => get_minimum_cursor
  | .valid entries =>
    match List.lookup partition entries with
    | none => get_minimum_cursor
    | some .emptyObj => get_minimum_cursor
    | some (.entry e) =>
      match parseDate (e.dateStr.getD "1970-01-01") with
      | none => get_minimum_cursor
      | some d =>
        (e.project_id.getD "", e.obs_type.getD "", d, e.obs_id.getD "")

/-- Python dict assignment `cursor_data[partition] = v` on the parsed
mapping: replaces the value in place when the key exists (its position is
preserved), otherwise appends the new key at the end. -/
def upsertEntry (entries : List (String × EntryVal)) (partition : String) (v : EntryVal) :
    List (String × EntryVal) :=
  if (List.lookup partition entries).isSome then
    entries.map (fun kv => if kv.1 = partition then (partition, v) else kv)
  else entries ++ [(partition, v)]

/-- The entry `save_cursor` writes for a cursor: all four components as
strings (the date via `strftime("%Y-%m-%d")`) plus the `updated_at`
timestamp. -/
def entryOfCursor (c : CursorTuple) (now : String) : EntryRaw :=
  { project_id := some c.1
    obs_type := some c.2.1
    dateStr := some (formatDate c.2.2.1)
    obs_id := some c.2.2.2
    updated_at := some now }

/-- `save_cursor`: re-reads the existing file (an unreadable or missing
file degrades to the empty mapping, logged), updates the entry of
`partition`, and writes the mapping back.  `write_ok` tells whether the
final write succeeds; a failed write is logged, not raised (the function
still returns), and `none` records that no new mapping was persisted. -/
def save_cursor (partition : String) (c : CursorTuple) (now : String)
    (fs : FileState) (write_ok : Bool) : Option (List (String × EntryVal)) :=
  let cursor_data :=
    match fs with
    | .valid entries => entries
    | _ => []
  let newData := upsertEntry cursor_data partition (.entry (entryOfCursor c now))
  if write_ok then some newData else none

/-- All rows of the partition at or after cursor `c` (the page query of
`stream_observations` without its `LIMIT` clause), in ascending key
order. -/
def pending {K : Type} [LinearOrder K] (rows : List K) (c : K) : List K :=
  rows.filter (fun r => decide (c ≤ r))

/-! ## Concrete data used by counterexamples and witnesses -/

/-- The minimum cursor `("", "", date(1970, 1, 1), "")` as a composite
key (empty strings, epoch date). -/
def keyMin : ObsKey := mkKey [] [] 0 []

/-- Key of a first observation row of a one-project partition
(`project_id = "p"`, `type = "G"`, same date, `id = "a"`). -/
def keyRowA : ObsKey := mkKey ['p'] ['G'] 1 ['a']

/-- Key of a second observation row of the same partition
(`id = "b"`, all other components equal to `keyRowA`). -/
def keyRowB : ObsKey := mkKey ['p'] ['G'] 1 ['b']

/-- A side table with one entry for `("project1", "trace1")` carrying
`bookmarked = true` and no tags. -/
def bookmarkedAttrs : List ((String × String) × TraceAttr) :=
  [(("project1", "trace1"),
    { user_id := "", session_id := "", metadata := [], public := false,
      bookmarked := true, release := "" })]

/-- An observation of `trace1` with no parent reference whose id is not the
synthetic root id `"t-trace1"`. -/
def parentlessRow : ObsRow :=
  { project_id := "project1", obs_id := "obs1", trace_id := "trace1",
    parent_observation_id := none, metadata := none }

/-- The row-level metadata dict of an observation
(`obs_metadata = metadata or {}` in the transformer). -/
def rowObsMetadata (row : ObsRow) : List (String × PyVal) := row.metadata.getD []

/-- The attribute map of the matching side-table entry
(`trace_metadata = trace_attr.get("metadata", {})` in the transformer);
empty when the side table has no entry for the row's trace. -/
def sideMetadata (trace_attrs : List ((String × String) × TraceAttr)) (row : ObsRow) :
    List (String × PyVal) :=
  match List.lookup (row.project_id, row.trace_id) trace_attrs with
  | some a => a.metadata
  | none => []

/-- A persisted cursor-file entry used by the witnesses. -/
def cursorEntryW : EntryRaw :=
  { project_id := some "p", obs_type := some "GENERATION",
    dateStr := some "2024-06-05", obs_id := some "obs9", updated_at := some "ts" }

/-- A parsed two-partition cursor-file mapping used by the witnesses. -/
def cursorFileEntriesW : List (String × EntryVal) :=
  [("202312", .emptyObj), ("202406", .entry cursorEntryW)]

/-- A cursor-file entry whose date string `"70-01-01"` is rejected by
`strptime("%Y-%m-%d")` (the `%Y` field requires exactly four digits), so
loading it falls back to the minimum cursor. -/
def badDateEntryW : EntryRaw :=
  { project_id := some "p", obs_type := some "SPAN", dateStr := some "70-01-01",
    obs_id := some "obs1", updated_at := none }

/-! ## Helper lemmas: association-list lookup -/

theorem lookup_append {α β : Type} [BEq α] (k : α) (l₁ l₂ : List (α × β)) :
    List.lookup k (l₁ ++ l₂) = (List.lookup k l₁).or (List.lookup k l₂) := by
  induction l₁ with
  | nil => simp
  | cons kv rest ih =>
    obtain ⟨a, b⟩ := kv
    simp only [List.cons_append, List.lookup_cons]
    cases h : k == a <;> simp [ih]

theorem lookup_map_snd {α β : Type} (h : α → β) (l : List (String × α)) (k : String) :
    List.lookup k (l.map (fun kv => (kv.1, h kv.2))) = (List.lookup k l).map h := by
  induction l with
  | nil => rfl
  | cons kv rest ih =>
    obtain ⟨a, b⟩ := kv
    simp only [List.map_cons, List.lookup_cons]
    cases hk : k == a <;> simp [ih]

theorem lookup_mergeLeft {α : Type} (a b : List (String × α)) (k : String) :
    List.lookup k (a.map (fun kv => (kv.1, (List.lookup kv.1 b).getD kv.2))) =
      (List.lookup k a).map (fun v => (List.lookup k b).getD v) := by
  induction a with
  | nil => rfl
  | cons kv rest ih =>
    obtain ⟨a', v⟩ := kv
    simp only [List.map_cons, List.lookup_cons]
    cases hk : k == a'
    · simp [ih]
    · have hka : k = a' := by simpa using hk
      subst hka
      simp

theorem lookup_filterNotMem {α : Type} (a b : List (String × α)) (k : String) :
    List.lookup k (b.filter (fun kv => (List.lookup kv.1 a).isNone)) =
      if (List.lookup k a).isNone then List.lookup k b else none := by
  induction b with
  | nil => simp
  | cons kv rest ih =>
    obtain ⟨b', v⟩ := kv
    by_cases hb : (List.lookup b' a).isNone
    · rw [List.filter_cons_of_pos (by simpa using hb)]
      simp only [List.lookup_cons]
      cases hk : k == b'
      · simpa using ih
      · have hkb : k = b' := by simpa using hk
        subst hkb
        simp [hb]
    · rw [List.filter_cons_of_neg (by simpa using hb)]
      rw [ih]
      simp only [List.lookup_cons]
      cases hk : k == b'
      · simp
      · have hkb : k = b' := by simpa using hk
        subst hkb
        have hno : (List.lookup k a).isNone = false := by
          cases h : List.lookup k a
          · exact absurd (by simp [h]) hb
          · simp
        simp [hno]

theorem lookup_dictMerge {α : Type} (a b : List (String × α)) (k : String) :
    List.lookup k (dictMerge a b) = (List.lookup k b).or (List.lookup k a) := by
  unfold dictMerge
  rw [lookup_append, lookup_mergeLeft, lookup_filterNotMem]
  cases ha : List.lookup k a <;> cases hb : List.lookup k b <;> simp [ha, hb]

/-! ## Helper lemmas: keyset pagination over a sorted partition -/


theorem fetch_eq_pending_take {K : Type} [LinearOrder K] (rows : List K) (c : K) (P : Nat) :
    fetch_observations_page rows c P = (pending rows c).take P := rfl

theorem pending_sorted {K : Type} [LinearOrder K] {rows : List K}
    (hs : rows.Sorted (· < ·)) (c : K) : (pending rows c).Sorted (· < ·) :=
  List.Sorted.filter _ hs

theorem pending_nodup {K : Type} [LinearOrder K] {rows : List K}
    (hs : rows.Sorted (· < ·)) (c : K) : (pending rows c).Nodup :=
  (pending_sorted hs c).nodup

theorem pending_subset {K : Type} [LinearOrder K] (rows : List K) (c : K) :
    pending rows c ⊆ rows :=
  fun _ hx => (List.mem_filter.mp hx).1

/-- On a strictly sorted list split as `a ++ x :: b`, filtering for keys
`≥ x` yields exactly `x :: b`. -/
theorem filter_ge_of_append {K : Type} [LinearOrder K] (a b : List K) (x : K)
    (hs : (a ++ x :: b).Sorted (· < ·)) :
    (a ++ x :: b).filter (fun r => decide (x ≤ r)) = x :: b := by
  rw [List.filter_append]
  have h := List.pairwise_append.mp hs
  have ha : a.filter (fun r => decide (x ≤ r)) = [] := by
    rw [List.filter_eq_nil_iff]
    intro y hy
    have hyx : y < x := h.2.2 y hy x (List.mem_cons_self _ _)
    simp [not_le.mpr hyx]
  have hb : (x :: b).filter (fun r => decide (x ≤ r)) = x :: b := by
    rw [List.filter_eq_self]
    intro y hy
    rcases List.mem_cons.mp hy with rfl | hy'
    · simp
    · have hxy : x < y := (List.pairwise_cons.mp h.2.1).1 y hy'
      simp [le_of_lt hxy]
  rw [ha, hb, List.nil_append]

theorem pending_trans {K : Type} [LinearOrder K] (rows : List K) (c x : K) (hcx : c ≤ x) :
    pending rows x = (pending rows c).filter (fun r => decide (x ≤ r)) := by
  unfold pending
  rw [List.filter_filter]
  apply List.filter_congr
  intro r _
  by_cases h : x ≤ r
  · simp [h, le_trans hcx h]
  · simp [h]

theorem mem_pending_le {K : Type} [LinearOrder K] {rows : List K} {c x : K}
    (hx : x ∈ pending rows c) : c ≤ x := by
  have := (List.mem_filter.mp hx).2
  simpa using this

/-- Splitting the pending list at index `P - 1` (for `1 ≤ P ≤ length`). -/
theorem pending_split {K : Type} [LinearOrder K] (l : List K) (P : Nat)
    (hP : 1 ≤ P) (hlen : P ≤ l.length) :
    l = l.take (P - 1) ++ l[P - 1] :: l.drop P := by
  conv_lhs => rw [← List.take_append_drop (P - 1) l]
  rw [List.drop_eq_getElem_cons (by omega)]
  have : P - 1 + 1 = P := by omega
  rw [this]

/-- `take P l = take (P-1) l ++ [l[P-1]]` (for `1 ≤ P ≤ length`). -/
theorem take_split_last {K : Type} [LinearOrder K] (l : List K) (P : Nat)
    (hP : 1 ≤ P) (hlen : P ≤ l.length) :
    l.take P = l.take (P - 1) ++ [l[P - 1]] := by
  have h1 : P - 1 + 1 = P := by omega
  conv_lhs => rw [← h1]
  rw [List.take_succ]
  have h2 : l[P - 1]? = some (l[P - 1]) := List.getElem?_eq_getElem (by omega)
  rw [h2]
  rfl

/-- The last element of a full page is the pending list's element at
index `P - 1`. -/
theorem page_getLast {K : Type} [LinearOrder K] (l : List K) (P : Nat)
    (hP : 1 ≤ P) (hlen : P ≤ l.length) :
    (l.take P).getLast? = some (l[P - 1]) := by
  rw [take_split_last l P hP hlen, List.getLast?_append]
  rfl

/-- Re-querying from the key of a full page's last row returns the pending
rows from index `P - 1` on: the boundary row is fetched again. -/
theorem pending_step {K : Type} [LinearOrder K] (rows : List K) (c : K)
    (hs : rows.Sorted (· < ·)) (P : Nat) (hP : 1 ≤ P)
    (hlen : P ≤ (pending rows c).length) :
    pending rows ((pending rows c)[P - 1]) = (pending rows c).drop (P - 1) := by
  have hsl : (pending rows c).Sorted (· < ·) := pending_sorted hs c
  have hmem : (pending rows c)[P - 1] ∈ pending rows c :=
    List.getElem_mem _
  have hcx : c ≤ (pending rows c)[P - 1] := mem_pending_le hmem
  rw [pending_trans rows c _ hcx]
  set l := pending rows c with hl
  set x := l[P - 1] with hx
  have hsplit : l = l.take (P - 1) ++ x :: l.drop P := pending_split l P hP hlen
  have hs2 : (l.take (P - 1) ++ x :: l.drop P).Sorted (· < ·) := by
    rw [← hsplit]; exact hsl
  have h1 : P - 1 + 1 = P := by omega
  calc l.filter (fun r => decide (x ≤ r))
      = (l.take (P - 1) ++ x :: l.drop P).filter (fun r => decide (x ≤ r)) := by
        rw [← hsplit]
    _ = x :: l.drop P := filter_ge_of_append _ _ _ hs2
    _ = l.drop (P - 1) := by
        rw [List.drop_eq_getElem_cons (show P - 1 < l.length by omega)]
        congr 1
        rw [h1]

/-- Members of the front of a nodup list are not in its tail. -/
theorem mem_take_not_mem_drop {K : Type} {l : List K} (hnd : l.Nodup) (i : Nat)
    {x : K} (hx : x ∈ l.take i) : x ∉ l.drop i := by
  have h2 : (l.take i ++ l.drop i).Nodup := by
    rw [List.take_append_drop]; exact hnd
  exact (List.nodup_append.mp h2).2.2 hx

theorem drop_pred_cons {K : Type} (l : List K) (P : Nat) (hP : 1 ≤ P) (hlen : P ≤ l.length) :
    l.drop (P - 1) = l[P - 1] :: l.drop P := by
  rw [List.drop_eq_getElem_cons (show P - 1 < l.length by omega)]
  congr 1
  rw [show P - 1 + 1 = P by omega]

/-- Unfolding of one iteration of the `while True` loop. -/
theorem stream_observations_succ {K : Type} [LinearOrder K] (rows : List K) (ok : K → Bool)
    (dry_run : Bool) (P fuel : Nat) (c : K) :
    stream_observations rows ok dry_run P (fuel + 1) c =
      (let page := fetch_observations_page rows c P
       if page.isEmpty then
         some { processed := [], savedCursors := [], inserted := 0, finalCursor := c }
       else
         let batch := page.filter ok
         let c' := (batch.getLast?).getD c
         let saved := if batch.isEmpty then [] else [c']
         let ins := if batch.isEmpty then 0 else if dry_run then 0 else batch.length
         if page.length < P then
           some { processed := batch, savedCursors := saved, inserted := ins,
                  finalCursor := c' }
         else
           (stream_observations rows ok dry_run P fuel c').map fun r =>
             { processed := batch ++ r.processed, savedCursors := saved ++ r.savedCursors,
               inserted := ins + r.inserted, finalCursor := r.finalCursor }) := rfl

/-- Master invariant of a run of the streaming loop with all transforms
succeeding, over a strictly sorted partition and a page size of at least
two: given enough fuel the loop terminates, the processed rows are exactly
the pending rows (each processed at least once), no row is processed more
than twice, the first pending row is processed at most once, and the final
cursor is the last pending row (or the start cursor when nothing is
pending). -/
theorem stream_run_spec {K : Type} [LinearOrder K] (rows : List K)
    (hs : rows.Sorted (· < ·)) (P : Nat) (hP : 2 ≤ P) (dry_run : Bool) :
    ∀ fuel c, (pending rows c).length < fuel →
      ∃ res, stream_observations rows (fun _ => true) dry_run P fuel c = some res ∧
        (∀ k, k ∈ res.processed ↔ k ∈ pending rows c) ∧
        (∀ k, res.processed.count k ≤ 2) ∧
        (∀ k, (pending rows c).head? = some k → res.processed.count k ≤ 1) ∧
        ((pending rows c = [] ∧ res.finalCursor = c) ∨
          (pending rows c).getLast? = some res.finalCursor) := by
  intro fuel
  induction fuel with
  | zero => intro c h; exact absurd h (by omega)
  | succ fuel ih =>
    intro c hlen
    have hnd : (pending rows c).Nodup := pending_nodup hs c
    by_cases hnil : pending rows c = []
    · refine ⟨⟨[], [], 0, c⟩, ?_, ?_, ?_, ?_, ?_⟩
      · rw [stream_observations_succ]
        simp [fetch_eq_pending_take, hnil]
      · intro k; simp [hnil]
      · intro k; simp
      · intro k hk; rw [hnil] at hk; simp at hk
      · exact Or.inl ⟨hnil, rfl⟩
    · by_cases hshort : (pending rows c).length < P
      · -- short page: the whole pending list is fetched and the loop stops
        have hpage : fetch_observations_page rows c P = pending rows c := by
          rw [fetch_eq_pending_take]
          exact List.take_of_length_le (by omega)
        obtain ⟨y, hy⟩ : ∃ y, (pending rows c).getLast? = some y := by
          cases hg : (pending rows c).getLast? with
          | none => exact absurd (List.getLast?_eq_none_iff.mp hg) hnil
          | some y => exact ⟨y, rfl⟩
        refine ⟨⟨pending rows c, [y],
          if dry_run then 0 else (pending rows c).length, y⟩, ?_, ?_, ?_, ?_, ?_⟩
        · rw [stream_observations_succ]
          simp [hpage, hnil, hshort, List.filter_true, hy]
        · intro k; simp
        · intro k
          exact le_trans (List.nodup_iff_count_le_one.mp hnd k) (by omega)
        · intro k _
          exact List.nodup_iff_count_le_one.mp hnd k
        · exact Or.inr hy
      · -- full page
        push_neg at hshort
        set l := pending rows c with hl
        have hxmem : l[P - 1] ∈ l := List.getElem_mem _
        set x := l[P - 1] with hxdef
        have hpage : fetch_observations_page rows c P = l.take P := fetch_eq_pending_take rows c P
        have hpagelen : (l.take P).length = P := by
          rw [List.length_take]; omega
        have hlast : (l.take P).getLast? = some x := page_getLast l P (by omega) hshort
        have hstep : pending rows x = l.drop (P - 1) :=
          pending_step rows c hs P (by omega) hshort
        have hdropcons : l.drop (P - 1) = x :: l.drop P := drop_pred_cons l P (by omega) hshort
        have hrec_len : (pending rows x).length < fuel := by
          rw [hstep, List.length_drop]; omega
        obtain ⟨res', hres', hmem', hcount', hhead', hfin'⟩ := ih x hrec_len
        have hsplit : l = l.take (P - 1) ++ x :: l.drop P := pending_split l P (by omega) hshort
        have hsplit2 : l.take P = l.take (P - 1) ++ [x] := take_split_last l P (by omega) hshort
        have hndP : (l.take P).Nodup := hnd.sublist (List.take_sublist _ _)
        refine ⟨⟨l.take P ++ res'.processed, x :: res'.savedCursors,
          (if dry_run then 0 else P) + res'.inserted, res'.finalCursor⟩, ?_, ?_, ?_, ?_, ?_⟩
        · rw [stream_observations_succ]
          have hne : (l.take P) ≠ [] := by
            intro h
            rw [h] at hpagelen
            simp at hpagelen
            omega
          simp [hpage, hne, List.filter_true, hlast, hpagelen, hres']
        · intro k
          constructor
          · intro hk
            rcases List.mem_append.mp hk with hk | hk
            · exact List.take_subset _ _ hk
            · have hk2 := (hmem' k).mp hk
              rw [hstep] at hk2
              exact List.drop_subset _ _ hk2
          · intro hk
            rw [hsplit] at hk
            rcases List.mem_append.mp hk with hk | hk
            · refine List.mem_append.mpr (Or.inl ?_)
              rw [hsplit2]
              exact List.mem_append.mpr (Or.inl hk)
            · rcases List.mem_cons.mp hk with rfl | hk
              · refine List.mem_append.mpr (Or.inl ?_)
                rw [hsplit2]
                exact List.mem_append.mpr (Or.inr (List.mem_singleton.mpr rfl))
              · refine List.mem_append.mpr (Or.inr ?_)
                refine (hmem' k).mpr ?_
                rw [hstep, hdropcons]
                exact List.mem_cons_of_mem _ hk
        · intro k
          rw [List.count_append]
          have hcpage : (l.take P).count k ≤ 1 := List.nodup_iff_count_le_one.mp hndP k
          by_cases hkl : k ∈ l
          · rw [hsplit] at hkl
            rcases List.mem_append.mp hkl with hk1 | hk2
            · have hcr : res'.processed.count k = 0 := by
                apply List.count_eq_zero.mpr
                intro hk
                have hk2 := (hmem' k).mp hk
                rw [hstep] at hk2
                exact mem_take_not_mem_drop hnd (P - 1) hk1 hk2
              omega
            · rcases List.mem_cons.mp hk2 with hkx | hk3
              · have hhx : (pending rows x).head? = some k := by
                  rw [hstep, hdropcons, hkx]; rfl
                have := hhead' k hhx
                omega
              · have h0 : (l.take P).count k = 0 := by
                  apply List.count_eq_zero.mpr
                  intro hk
                  exact mem_take_not_mem_drop hnd P hk hk3
                have := hcount' k
                omega
          · have h0 : (l.take P).count k = 0 :=
              List.count_eq_zero.mpr (fun hk => hkl (List.take_subset _ _ hk))
            have h0' : res'.processed.count k = 0 := by
              apply List.count_eq_zero.mpr
              intro hk
              have hk2 := (hmem' k).mp hk
              rw [hstep] at hk2
              exact hkl (List.drop_subset _ _ hk2)
            omega
        · intro k hk
          rw [List.count_append]
          obtain ⟨t, ht⟩ : ∃ t, l = k :: t := List.head?_eq_some_iff.mp hk
          have hk1 : k ∈ l.take (P - 1) := by
            obtain ⟨m, hm⟩ : ∃ m, P - 1 = m + 1 := ⟨P - 2, by omega⟩
            rw [ht, hm, List.take_succ_cons]
            exact List.mem_cons_self _ _
          have hcr : res'.processed.count k = 0 := by
            apply List.count_eq_zero.mpr
            intro hkp
            have hk2 := (hmem' k).mp hkp
            rw [hstep] at hk2
            exact mem_take_not_mem_drop hnd (P - 1) hk1 hk2
          have hcpage : (l.take P).count k ≤ 1 := List.nodup_iff_count_le_one.mp hndP k
          omega
        · right
          have hfin2 : (pending rows x).getLast? = some res'.finalCursor := by
            rcases hfin' with ⟨hemp, _⟩ | h
            · rw [hstep, hdropcons] at hemp
              exact absurd hemp (by simp)
            · exact h
          rw [hstep] at hfin2
          conv_lhs => rw [← List.take_append_drop (P - 1) l]
          rw [List.getLast?_append, hfin2]
          rfl

/-- When the cursor already sits at the key of the partition's last row,
the page query returns exactly that row again. -/
theorem pending_getLast_self {K : Type} [LinearOrder K] {rows : List K}
    (hs : rows.Sorted (· < ·)) {L : K} (hL : rows.getLast? = some L) :
    pending rows L = [L] := by
  obtain ⟨ys, hys⟩ := List.getLast?_eq_some_iff.mp hL
  subst hys
  have h := filter_ge_of_append ys [] L (by simpa using hs)
  simpa [pending] using h

/-- Resuming the loop from the key of the last row of the partition:
the first page is `[L]`, the row is transformed and inserted again, and the
same cursor value is saved once more. -/
theorem stream_resume_last {K : Type} [LinearOrder K] {rows : List K}
    (hs : rows.Sorted (· < ·)) {L : K} (hL : rows.getLast? = some L)
    (P fuel : Nat) (hP : 2 ≤ P) (hfuel : 0 < fuel) (dry_run : Bool) :
    fetch_observations_page rows L P = [L] ∧
    stream_observations rows (fun _ => true) dry_run P fuel L =
      some { processed := [L], savedCursors := [L],
             inserted := if dry_run then 0 else 1, finalCursor := L } := by
  have hpend : pending rows L = [L] := pending_getLast_self hs hL
  have hpage : fetch_observations_page rows L P = [L] := by
    rw [fetch_eq_pending_take, hpend]
    exact List.take_of_length_le (by simp; omega)
  refine ⟨hpage, ?_⟩
  obtain ⟨fuel', rfl⟩ : ∃ f, fuel = f + 1 := ⟨fuel - 1, by omega⟩
  rw [stream_observations_succ]
  simp [hpage, show (1:Nat) < P by omega]

/-- If a page is full and every row of it fails to transform, the loop
makes no progress: the batch is empty, the cursor is unchanged, neither
stop condition fires, and the identical query is reissued forever. -/
theorem stream_stuck {K : Type} [LinearOrder K] (rows : List K) (ok : K → Bool)
    (dry_run : Bool) (P : Nat) (hP : 0 < P) (c : K)
    (hfull : (fetch_observations_page rows c P).length = P)
    (hfail : ∀ r ∈ fetch_observations_page rows c P, ok r = false) :
    ∀ fuel, stream_observations rows ok dry_run P fuel c = none := by
  intro fuel
  induction fuel with
  | zero => rfl
  | succ fuel ih =>
    rw [stream_observations_succ]
    have hne : fetch_observations_page rows c P ≠ [] := by
      intro h
      rw [h] at hfull
      simp at hfull
      omega
    have hbatch : (fetch_observations_page rows c P).filter ok = [] :=
      List.filter_eq_nil_iff.mpr (fun a ha => by simp [hfail a ha])
    simp [hne, hbatch, hfull, ih]

/-! ## Helper lemmas: retry loop -/

theorem insert_attempt_loop_succeeds (outcome : Nat → Bool) (batch_len : Nat) :
    ∀ k attempt remaining,
      (∀ i, attempt ≤ i → i < attempt + k → outcome i = false) →
      outcome (attempt + k) = true → k < remaining →
      insert_attempt_loop outcome batch_len attempt remaining =
        { attemptsMade := k + 1, successes := 1, insertedEvents := batch_len,
          sleeps := (List.range' attempt k).map (2 ^ ·), raised := false } := by
  intro k
  induction k with
  | zero =>
    intro attempt remaining _ hsucc hrem
    obtain ⟨r, rfl⟩ : ∃ r, remaining = r + 1 := ⟨remaining - 1, by omega⟩
    simp only [insert_attempt_loop]
    rw [if_pos (by simpa using hsucc)]
    rfl
  | succ k ih =>
    intro attempt remaining hfail hsucc hrem
    obtain ⟨r, rfl⟩ : ∃ r, remaining = r + 1 := ⟨remaining - 1, by omega⟩
    simp only [insert_attempt_loop]
    rw [if_neg (by simp [hfail attempt (le_refl _) (by omega)])]
    rw [if_neg (show ¬r = 0 by omega)]
    rw [ih (attempt + 1) r (fun i h1 h2 => hfail i (by omega) (by omega))
      (by rw [show attempt + 1 + k = attempt + (k + 1) by omega]; exact hsucc) (by omega)]
    rw [List.range'_succ]
    rfl

theorem insert_attempt_loop_all_fail (outcome : Nat → Bool) (batch_len : Nat) :
    ∀ remaining attempt,
      (∀ i, attempt ≤ i → i < attempt + remaining → outcome i = false) →
      0 < remaining →
      insert_attempt_loop outcome batch_len attempt remaining =
        { attemptsMade := remaining, successes := 0, insertedEvents := 0,
          sleeps := (List.range' attempt (remaining - 1)).map (2 ^ ·), raised := true } := by
  intro remaining
  induction remaining with
  | zero => intro attempt _ h; omega
  | succ r ih =>
    intro attempt hfail _
    simp only [insert_attempt_loop]
    rw [if_neg (by simp [hfail attempt (le_refl _) (by omega)])]
    by_cases hr : r = 0
    · subst hr
      rw [if_pos rfl]
      rfl
    · rw [if_neg hr]
      rw [ih (attempt + 1) (fun i h1 h2 => hfail i (by omega) (by omega)) (by omega)]
      obtain ⟨r', rfl⟩ : ∃ r', r = r' + 1 := ⟨r - 1, by omega⟩
      rw [show r' + 1 + 1 - 1 = r' + 1 by omega, List.range'_succ]
      rfl

/-! ## Helper lemmas: cursor-file upsert -/

theorem lookup_map_set (es : List (String × EntryVal)) (p : String) (v : EntryVal) :
    List.lookup p (es.map (fun kv => if kv.1 = p then (p, v) else kv)) =
      if (List.lookup p es).isSome then some v else none := by
  induction es with
  | nil => simp
  | cons kv rest ih =>
    obtain ⟨a, b⟩ := kv
    by_cases hap : a = p
    · subst hap
      simp [List.lookup_cons]
    · have hpa : (p == a) = false := by
        simp [beq_iff_eq]
        exact fun h => hap h.symm
      simp only [List.map_cons, if_neg (by simpa using hap), List.lookup_cons, hpa, ih]

theorem lookup_map_set_other (es : List (String × EntryVal)) (p : String) (v : EntryVal)
    (q : String) (hq : q ≠ p) :
    List.lookup q (es.map (fun kv => if kv.1 = p then (p, v) else kv)) =
      List.lookup q es := by
  induction es with
  | nil => rfl
  | cons kv rest ih =>
    obtain ⟨a, b⟩ := kv
    by_cases hap : a = p
    · subst hap
      have hqa : (q == a) = false := by simpa [beq_iff_eq] using hq
      simp [List.lookup_cons, hqa, ih]
    · simp only [List.map_cons, if_neg (by simpa using hap), List.lookup_cons]
      cases hqa : q == a <;> simp [ih]

theorem filter_map_set_ne (es : List (String × EntryVal)) (p : String) (v : EntryVal) :
    (es.map (fun kv => if kv.1 = p then (p, v) else kv)).filter
        (fun kv => decide (kv.1 ≠ p)) =
      es.filter (fun kv => decide (kv.1 ≠ p)) := by
  induction es with
  | nil => rfl
  | cons kv rest ih =>
    obtain ⟨a, b⟩ := kv
    by_cases hap : a = p
    · subst hap
      rw [List.map_cons, if_pos rfl, List.filter_cons_of_neg (by simp),
        List.filter_cons_of_neg (by simp)]
      exact ih
    · rw [List.map_cons, if_neg (by simpa using hap),
        List.filter_cons_of_pos (by simpa using hap),
        List.filter_cons_of_pos (by simpa using hap), ih]

theorem lookup_upsert_self (es : List (String × EntryVal)) (p : String) (v : EntryVal) :
    List.lookup p (upsertEntry es p v) = some v := by
  unfold upsertEntry
  by_cases h : (List.lookup p es).isSome
  · rw [if_pos h, lookup_map_set, if_pos h]
  · rw [if_neg h, lookup_append]
    have hnone : List.lookup p es = none := by
      cases hl : List.lookup p es
      · rfl
      · rw [hl] at h; simp at h
    simp [hnone]

theorem lookup_upsert_other (es : List (String × EntryVal)) (p : String) (v : EntryVal)
    (q : String) (hq : q ≠ p) :
    List.lookup q (upsertEntry es p v) = List.lookup q es := by
  unfold upsertEntry
  by_cases h : (List.lookup p es).isSome
  · rw [if_pos h, lookup_map_set_other es p v q hq]
  · rw [if_neg h, lookup_append]
    have hqp : (q == p) = false := by simpa [beq_iff_eq] using hq
    simp [List.lookup_cons, hqp]

theorem filter_upsert_ne (es : List (String × EntryVal)) (p : String) (v : EntryVal) :
    (upsertEntry es p v).filter (fun kv => decide (kv.1 ≠ p)) =
      es.filter (fun kv => decide (kv.1 ≠ p)) := by
  unfold upsertEntry
  by_cases h : (List.lookup p es).isSome
  · rw [if_pos h, filter_map_set_ne]
  · rw [if_neg h, List.filter_append]
    simp


/-! ## Claim C1 -/

/-- C1, counterexample: for the dataset `[keyRowA, keyRowB]` of N = 2
distinct rows in one partition and page size P = 2 ≤ N, the completed run
(fuel 5 suffices) processes the page-boundary row `keyRowB` twice — the
first page is `[keyRowA, keyRowB]` and, because the query predicate is
`key >= cursor` with the cursor set to the last transformed row's key, the
second page is `[keyRowB]` again.  This refutes "every row is visited
exactly once across all pages / no row is processed in two different
pages". -/
theorem C1_counterexample :
    (stream_observations [keyRowA, keyRowB] (fun _ => true) false 2 5 keyMin).map
        (fun r => r.processed) = some [keyRowA, keyRowB, keyRowB] ∧
    (stream_observations [keyRowA, keyRowB] (fun _ => true) false 2 5 keyMin).map
        (fun r => r.processed.count keyRowB) = some 2 := by
  constructor
  · decide
  · decide

/-- C1 (amended): over a strictly key-sorted partition, with page size
`2 ≤ P` and a start cursor at or below every row, the streaming loop (all
transforms succeeding, fuel `rows.length + 1` suffices) terminates and
visits every row of the partition at least once — no row is skipped at a
page boundary — and no row more than twice (the row at each full-page
boundary is re-fetched by the next page's `>=` query, so "exactly once"
fails; with `P = 1` the loop would not terminate at all). -/
theorem C1_page_scan_coverage (rows : List ObsKey) (P : Nat) (c0 : ObsKey)
    (hs : List.Sorted (· < ·) rows) (hP : 2 ≤ P)
    (hc0 : ∀ r ∈ rows, c0 ≤ r) :
    ∃ res, stream_observations rows (fun _ => true) false P (rows.length + 1) c0 = some res ∧
      (∀ k, k ∈ res.processed ↔ k ∈ rows) ∧
      (∀ k ∈ rows, 1 ≤ res.processed.count k) ∧
      (∀ k, res.processed.count k ≤ 2) := by
  have hpend : pending rows c0 = rows :=
    List.filter_eq_self.mpr (fun r hr => by simp [hc0 r hr])
  obtain ⟨res, h1, h2, h3, _, _⟩ :=
    stream_run_spec rows hs P hP false (rows.length + 1) c0 (by rw [hpend]; omega)
  rw [hpend] at h2
  exact ⟨res, h1, h2, fun k hk => List.count_pos_iff.mpr ((h2 k).mpr hk), h3⟩

/-- C1, witness for the amended theorem at the concrete two-row dataset. -/
theorem C1_page_scan_coverage_witness :
    List.Sorted (· < ·) [keyRowA, keyRowB] ∧ (2:Nat) ≤ 2 ∧
    (∀ r ∈ [keyRowA, keyRowB], keyMin ≤ r) ∧
    (∃ res,
      stream_observations [keyRowA, keyRowB] (fun _ => true) false 2
        ([keyRowA, keyRowB].length + 1) keyMin = some res ∧
      (∀ k, k ∈ res.processed ↔ k ∈ [keyRowA, keyRowB]) ∧
      (∀ k ∈ [keyRowA, keyRowB], 1 ≤ res.processed.count k) ∧
      (∀ k, res.processed.count k ≤ 2)) :=
  ⟨by decide, by decide, by decide,
    C1_page_scan_coverage [keyRowA, keyRowB] 2 keyMin (by decide) (by decide) (by decide)⟩

/-! ## Claim C2 -/

/-- C2, counterexample: run the pipeline to completion on
`[keyRowA, keyRowB]` (page size 2): the persisted cursor is `keyRowB`, the
key of the last row.  Re-running from that cursor, the first page query is
NOT empty (it returns `[keyRowB]`, because the page predicate is
`key >= cursor`), and the re-run transforms one row, not zero.  This
refutes "the first page query returns empty / zero new rows are
transformed". -/
theorem C2_counterexample :
    (stream_observations [keyRowA, keyRowB] (fun _ => true) false 2 5 keyMin).map
        (fun r => r.finalCursor) = some keyRowB ∧
    fetch_observations_page [keyRowA, keyRowB] keyRowB 2 = [keyRowB] ∧
    fetch_observations_page [keyRowA, keyRowB] keyRowB 2 ≠ [] ∧
    (stream_observations [keyRowA, keyRowB] (fun _ => true) false 2 5 keyRowB).map
        (fun r => r.processed.length) = some 1 := by
  refine ⟨by decide, by decide, by decide, by decide⟩

/-- C2 (amended): after a completed run over a strictly sorted non-empty
partition (page size `2 ≤ P`), the persisted cursor is the key `L` of the
partition's last row; re-running from `L` does not transform zero rows:
the first page query returns exactly `[L]`, the last row is transformed
and inserted once more, and the cursor is saved again with the unchanged
value `L` (so the persisted cursor is unchanged by the second run, but one
duplicate row is re-written rather than none). -/
theorem C2_resumption (rows : List ObsKey) (P fuel : Nat) (L : ObsKey)
    (hs : List.Sorted (· < ·) rows) (hP : 2 ≤ P)
    (hL : rows.getLast? = some L) (hfuel : 0 < fuel) :
    (∀ c0, (∀ r ∈ rows, c0 ≤ r) →
      (stream_observations rows (fun _ => true) false P (rows.length + 1) c0).map
        (fun r => r.finalCursor) = some L) ∧
    fetch_observations_page rows L P = [L] ∧
    stream_observations rows (fun _ => true) false P fuel L =
      some { processed := [L], savedCursors := [L], inserted := 1, finalCursor := L } := by
  obtain ⟨hpage, hrun⟩ := stream_resume_last hs hL P fuel hP hfuel false
  refine ⟨?_, hpage, by simpa using hrun⟩
  intro c0 hc0
  have hpend : pending rows c0 = rows :=
    List.filter_eq_self.mpr (fun r hr => by simp [hc0 r hr])
  obtain ⟨res, h1, _, _, _, hfin⟩ :=
    stream_run_spec rows hs P hP false (rows.length + 1) c0 (by rw [hpend]; omega)
  rw [h1]
  rcases hfin with ⟨hemp, _⟩ | hlast
  · rw [hpend] at hemp
    rw [hemp] at hL
    simp at hL
  · rw [hpend] at hlast
    rw [hL] at hlast
    simpa using hlast.symm

/-- C2, witness for the amended theorem at the concrete two-row dataset. -/
theorem C2_resumption_witness :
    List.Sorted (· < ·) [keyRowA, keyRowB] ∧ (2:Nat) ≤ 2 ∧
    [keyRowA, keyRowB].getLast? = some keyRowB ∧ (0:Nat) < 5 ∧
    ((∀ c0, (∀ r ∈ [keyRowA, keyRowB], c0 ≤ r) →
        (stream_observations [keyRowA, keyRowB] (fun _ => true) false 2
          ([keyRowA, keyRowB].length + 1) c0).map (fun r => r.finalCursor) = some keyRowB) ∧
      fetch_observations_page [keyRowA, keyRowB] keyRowB 2 = [keyRowB] ∧
      stream_observations [keyRowA, keyRowB] (fun _ => true) false 2 5 keyRowB =
        some { processed := [keyRowB], savedCursors := [keyRowB], inserted := 1,
               finalCursor := keyRowB }) :=
  ⟨by decide, by decide, by decide, by decide,
    C2_resumption [keyRowA, keyRowB] 2 5 keyRowB (by decide) (by decide) (by decide) (by decide)⟩

/-! ## Claim C10 -/

/-- C10: if the page query at cursor `c` returns a full page (exactly
`batch_size` rows) in which every row's transform raises, then the batch is
empty, the cursor is not advanced, neither break condition fires, and the
loop re-issues the identical query forever: for every iteration bound the
run is still unfinished (the pipeline does not terminate). -/
theorem C10_full_failing_page_nontermination (rows : List ObsKey) (ok : ObsKey → Bool)
    (dry_run : Bool) (batch_size : Nat) (c : ObsKey) (hP : 0 < batch_size)
    (hfull : (fetch_observations_page rows c batch_size).length = batch_size)
    (hfail : ∀ r ∈ fetch_observations_page rows c batch_size, ok r = false) :
    ∀ fuel, stream_observations rows ok dry_run batch_size fuel c = none :=
  stream_stuck rows ok dry_run batch_size hP c hfull hfail

/-- C10, witness: a one-row partition, page size 1, every transform
failing: the loop never finishes within any bound (7 shown). -/
theorem C10_full_failing_page_nontermination_witness :
    (0:Nat) < 1 ∧
    (fetch_observations_page [keyRowA] keyMin 1).length = 1 ∧
    (∀ r ∈ fetch_observations_page [keyRowA] keyMin 1, (fun _ : ObsKey => false) r = false) ∧
    stream_observations [keyRowA] (fun _ => false) false 1 7 keyMin = none :=
  ⟨by decide, by decide, by decide,
    C10_full_failing_page_nontermination [keyRowA] (fun _ => false) false 1 keyMin
      (by decide) (by decide) (by decide) 7⟩

/-! ## Claim C3 -/

/-- C3: for a non-empty batch (dry-run off): if the insert fails on the
first `k` attempts and succeeds on attempt `k`, with `k < max_retries`,
then the batch is written exactly once (one successful insert, no raise),
the cursor is saved exactly once for that batch, and the backoff delays
are `2^0, 2^1, ..., 2^(k-1)` seconds — each delay double the previous; if
all `max_retries` attempts fail, the call re-raises (aborting the run),
nothing is written, and the cursor is not saved for that batch. -/
theorem C3_retry_outcome (batch_len max_retries k : Nat) (outcome : Nat → Bool)
    (hbl : 0 < batch_len) :
    ((∀ i, i < k → outcome i = false) → outcome k = true → k < max_retries →
      insert_events_batch false batch_len outcome max_retries =
        { attemptsMade := k + 1, successes := 1, insertedEvents := batch_len,
          sleeps := (List.range k).map (2 ^ ·), raised := false } ∧
      checkpoint_saves_for_batch false batch_len outcome max_retries = 1) ∧
    ((∀ i, i < max_retries → outcome i = false) → 0 < max_retries →
      insert_events_batch false batch_len outcome max_retries =
        { attemptsMade := max_retries, successes := 0, insertedEvents := 0,
          sleeps := (List.range (max_retries - 1)).map (2 ^ ·), raised := true } ∧
      checkpoint_saves_for_batch false batch_len outcome max_retries = 0) := by
  constructor
  · intro hfail hsucc hk
    have hloop := insert_attempt_loop_succeeds outcome batch_len k 0 max_retries
      (fun i h1 h2 => hfail i (by omega)) (by simpa using hsucc) hk
    have hbatch : insert_events_batch false batch_len outcome max_retries =
        { attemptsMade := k + 1, successes := 1, insertedEvents := batch_len,
          sleeps := (List.range k).map (2 ^ ·), raised := false } := by
      unfold insert_events_batch
      rw [if_neg (by simp), if_neg (by omega)]
      rw [hloop, List.range_eq_range']
    refine ⟨hbatch, ?_⟩
    unfold checkpoint_saves_for_batch
    rw [if_neg (by omega), hbatch, if_neg (by simp)]
  · intro hfail hmr
    have hloop := insert_attempt_loop_all_fail outcome batch_len max_retries 0
      (fun i h1 h2 => hfail i (by omega)) hmr
    have hbatch : insert_events_batch false batch_len outcome max_retries =
        { attemptsMade := max_retries, successes := 0, insertedEvents := 0,
          sleeps := (List.range (max_retries - 1)).map (2 ^ ·), raised := true } := by
      unfold insert_events_batch
      rw [if_neg (by simp), if_neg (by omega)]
      rw [hloop, List.range_eq_range']
    refine ⟨hbatch, ?_⟩
    unfold checkpoint_saves_for_batch
    rw [if_neg (by omega), hbatch]
    rfl

/-- C3, witness: batch of 5, `max_retries = 3`; an interface failing on
attempt 0 and succeeding on attempt 1 yields one write, one checkpoint and
a 1-second backoff; an always-failing interface yields a raise, no write,
no checkpoint, after backoffs of 1 and 2 seconds. -/
theorem C3_retry_outcome_witness :
    (0:Nat) < 5 ∧
    (insert_events_batch false 5 (fun i => i == 1) 3 =
        { attemptsMade := 2, successes := 1, insertedEvents := 5,
          sleeps := (List.range 1).map (2 ^ ·), raised := false } ∧
      checkpoint_saves_for_batch false 5 (fun i => i == 1) 3 = 1) ∧
    (insert_events_batch false 5 (fun _ => false) 3 =
        { attemptsMade := 3, successes := 0, insertedEvents := 0,
          sleeps := (List.range 2).map (2 ^ ·), raised := true } ∧
      checkpoint_saves_for_batch false 5 (fun _ => false) 3 = 0) :=
  ⟨by decide,
    (C3_retry_outcome 5 3 1 (fun i => i == 1) (by decide)).1
      (by decide) (by decide) (by decide),
    (C3_retry_outcome 5 3 0 (fun _ => false) (by decide)).2
      (by decide) (by decide)⟩

/-! ## Claim C4 -/

/-- C4: with the dry-run flag set, a run over a non-empty dataset performs
no insert attempt and reports `events_inserted = 0` — but, contrary to the
claim, the cursor IS saved after the (skipped) insert of each non-empty
batch: `save_cursor` at the end of the loop body is not guarded by the
dry-run flag, which only makes `insert_events_batch` return early.  Run on
a one-row partition: zero inserts, yet one checkpoint is persisted. -/
theorem C4_dry_run_saves_cursor :
    stream_observations [keyRowA] (fun _ => true) true 2 3 keyMin =
      some { processed := [keyRowA], savedCursors := [keyRowA], inserted := 0,
             finalCursor := keyRowA } ∧
    insert_events_batch true 1 (fun _ => false) 3 =
      { attemptsMade := 0, successes := 0, insertedEvents := 0, sleeps := [],
        raised := false } ∧
    checkpoint_saves_for_batch true 1 (fun _ => false) 3 = 1 := by
  refine ⟨by decide, by decide, by decide⟩

/-! ## Claims C5, C6, C7 -/

theorem root_id_ne_empty (t : String) : "t-" ++ t ≠ "" := by
  intro h
  have h2 := congrArg String.length h
  rw [String.length_append] at h2
  have h3 : ("t-" : String).length = 2 := rfl
  have h4 : ("" : String).length = 0 := rfl
  rw [h3, h4] at h2
  omega

theorem pyOrStr_ne_empty (x : Option String) {y : String} (hy : y ≠ "") :
    pyOrStr x y ≠ "" := by
  cases x with
  | none => exact hy
  | some s =>
    by_cases hs : s = ""
    · simp only [pyOrStr, hs, if_pos rfl]
      exact hy
    · simp only [pyOrStr, hs, if_neg hs]
      exact hs

/-- C5: a transformed record's `parent_span_id` is empty iff the row's id
equals the synthetic root id `"t-" + trace_id`; for every other row it is
the row's own parent reference when that is present (non-`None`,
non-empty), else the synthetic root id — and in either case non-empty. -/
theorem C5_root_parent_invariant (trace_attrs : List ((String × String) × TraceAttr))
    (row : ObsRow) :
    ((transform_observation_to_event trace_attrs row).parent_span_id = "" ↔
      row.obs_id = "t-" ++ row.trace_id) ∧
    (row.obs_id ≠ "t-" ++ row.trace_id →
      (transform_observation_to_event trace_attrs row).parent_span_id =
        pyOrStr row.parent_observation_id ("t-" ++ row.trace_id) ∧
      (transform_observation_to_event trace_attrs row).parent_span_id ≠ "") := by
  by_cases h : row.obs_id = "t-" ++ row.trace_id
  · constructor
    · constructor
      · intro _; exact h
      · intro _; simp [transform_observation_to_event, h]
    · intro h'; exact absurd h h'
  · have hps : (transform_observation_to_event trace_attrs row).parent_span_id =
        pyOrStr row.parent_observation_id ("t-" ++ row.trace_id) := by
      simp [transform_observation_to_event, h]
    have hne : (transform_observation_to_event trace_attrs row).parent_span_id ≠ "" := by
      rw [hps]
      exact pyOrStr_ne_empty _ (root_id_ne_empty _)
    exact ⟨iff_of_false hne h, fun _ => ⟨hps, hne⟩⟩

/-- C5, witness: concrete root and non-root rows of `trace1`. -/
theorem C5_root_parent_invariant_witness :
    (((transform_observation_to_event bookmarkedAttrs parentlessRow).parent_span_id = "" ↔
        parentlessRow.obs_id = "t-" ++ parentlessRow.trace_id) ∧
      (parentlessRow.obs_id ≠ "t-" ++ parentlessRow.trace_id →
        (transform_observation_to_event bookmarkedAttrs parentlessRow).parent_span_id =
          pyOrStr parentlessRow.parent_observation_id ("t-" ++ parentlessRow.trace_id) ∧
        (transform_observation_to_event bookmarkedAttrs parentlessRow).parent_span_id ≠ "")) ∧
    (transform_observation_to_event bookmarkedAttrs parentlessRow).parent_span_id =
      "t-trace1" :=
  ⟨C5_root_parent_invariant bookmarkedAttrs parentlessRow, by decide⟩

/-- C6, counterexample: `parentlessRow` has no parent reference but its id
`"obs1"` differs from the synthetic root id `"t-trace1"`; with the side
table carrying `bookmarked = true`, the transformed record has
`bookmarked = true` while `parent_span_id = "t-trace1" ≠ ""` — refuting
"`bookmarked = true` implies `parent_span_id` is empty". -/
theorem C6_counterexample :
    (transform_observation_to_event bookmarkedAttrs parentlessRow).bookmarked = true ∧
    (transform_observation_to_event bookmarkedAttrs parentlessRow).parent_span_id =
      "t-trace1" ∧
    (transform_observation_to_event bookmarkedAttrs parentlessRow).parent_span_id ≠ "" := by
  refine ⟨by decide, by decide, by decide⟩

/-- C6 (amended): `bookmarked = true` on a transformed record implies the
source row's own parent reference is absent (`None` or empty) — bookmarked
is forced false on every row with a parent reference — and implies the
transformed `parent_span_id` is either empty (when the row is the
synthetic root) or the synthetic root id `"t-" + trace_id` (when it is
not); it does not imply `parent_span_id` is empty. -/
theorem C6_bookmark_forces_no_parent (trace_attrs : List ((String × String) × TraceAttr))
    (row : ObsRow) :
    ((transform_observation_to_event trace_attrs row).bookmarked = true →
      (row.parent_observation_id = none ∨ row.parent_observation_id = some "")) ∧
    ((transform_observation_to_event trace_attrs row).bookmarked = true →
      (transform_observation_to_event trace_attrs row).parent_span_id = "" ∨
      (transform_observation_to_event trace_attrs row).parent_span_id =
        "t-" ++ row.trace_id) := by
  have hb : (transform_observation_to_event trace_attrs row).bookmarked =
      ((match List.lookup (row.project_id, row.trace_id) trace_attrs with
        | some a => a.bookmarked
        | none => false) && pyFalsyStr row.parent_observation_id) := by
    simp [transform_observation_to_event]
  constructor
  · intro h
    rw [hb] at h
    have hf : pyFalsyStr row.parent_observation_id = true := by
      simp only [Bool.and_eq_true] at h
      exact h.2
    cases hp : row.parent_observation_id with
    | none => exact Or.inl rfl
    | some s =>
      rw [hp] at hf
      simp only [pyFalsyStr, decide_eq_true_eq] at hf
      exact Or.inr (by simp [hp, hf])
  · intro h
    rw [hb] at h
    have hf : pyFalsyStr row.parent_observation_id = true := by
      simp only [Bool.and_eq_true] at h
      exact h.2
    by_cases hroot : row.obs_id = "t-" ++ row.trace_id
    · exact Or.inl (by simp [transform_observation_to_event, hroot])
    · right
      have hps : (transform_observation_to_event trace_attrs row).parent_span_id =
          pyOrStr row.parent_observation_id ("t-" ++ row.trace_id) := by
        simp [transform_observation_to_event, hroot]
      rw [hps]
      cases hp : row.parent_observation_id with
      | none => rfl
      | some s =>
        rw [hp] at hf
        simp only [pyFalsyStr, decide_eq_true_eq] at hf
        simp [pyOrStr, hf]

/-- C6, witness for the amended theorem at the concrete bookmarked
parentless row. -/
theorem C6_bookmark_forces_no_parent_witness :
    ((transform_observation_to_event bookmarkedAttrs parentlessRow).bookmarked = true →
      (parentlessRow.parent_observation_id = none ∨
        parentlessRow.parent_observation_id = some "")) ∧
    ((transform_observation_to_event bookmarkedAttrs parentlessRow).bookmarked = true →
      (transform_observation_to_event bookmarkedAttrs parentlessRow).parent_span_id = "" ∨
      (transform_observation_to_event bookmarkedAttrs parentlessRow).parent_span_id =
        "t-" ++ parentlessRow.trace_id) :=
  C6_bookmark_forces_no_parent bookmarkedAttrs parentlessRow


/-- C7: a transformed record's `metadata_names` and `metadata_raw_values`
have equal length; zipping name `i` with value `i` yields exactly the
merged dict `{**obs_metadata, **trace_metadata}` with each value coerced
through `str`; looking any key up in the zipped pairs agrees (up to string
coercion) with the merged dict; and in the merged dict the side-table
entry's value wins over the row's value on every key collision. -/
theorem C7_metadata_flattening (trace_attrs : List ((String × String) × TraceAttr))
    (row : ObsRow) :
    (transform_observation_to_event trace_attrs row).metadata_names.length =
      (transform_observation_to_event trace_attrs row).metadata_raw_values.length ∧
    (transform_observation_to_event trace_attrs row).metadata_names.zip
        (transform_observation_to_event trace_attrs row).metadata_raw_values =
      (dictMerge (rowObsMetadata row) (sideMetadata trace_attrs row)).map
        (fun kv => (kv.1, pyStr kv.2)) ∧
    (∀ k, List.lookup k
        ((transform_observation_to_event trace_attrs row).metadata_names.zip
          (transform_observation_to_event trace_attrs row).metadata_raw_values) =
      (List.lookup k (dictMerge (rowObsMetadata row) (sideMetadata trace_attrs row))).map
        pyStr) ∧
    (∀ k, List.lookup k (dictMerge (rowObsMetadata row) (sideMetadata trace_attrs row)) =
      (List.lookup k (sideMetadata trace_attrs row)).or
        (List.lookup k (rowObsMetadata row))) := by
  have hnames : (transform_observation_to_event trace_attrs row).metadata_names =
      (dictMerge (rowObsMetadata row) (sideMetadata trace_attrs row)).map
        (fun kv => kv.1) := by
    simp [transform_observation_to_event, rowObsMetadata, sideMetadata]
  have hvals : (transform_observation_to_event trace_attrs row).metadata_raw_values =
      (dictMerge (rowObsMetadata row) (sideMetadata trace_attrs row)).map
        (fun kv => pyStr kv.2) := by
    simp [transform_observation_to_event, rowObsMetadata, sideMetadata]
  refine ⟨?_, ?_, ?_, ?_⟩
  · rw [hnames, hvals, List.length_map, List.length_map]
  · rw [hnames, hvals, List.zip_map']
  · intro k
    rw [hnames, hvals, List.zip_map']
    exact lookup_map_snd pyStr _ k
  · intro k
    exact lookup_dictMerge _ _ k

/-! ## Claims C8, C9 -/

/-- C8: `load_cursor` returns the persisted cursor of the partition (with
per-field defaults) when the file parses and holds a usable entry for it;
in every other case — file missing, file unreadable or corrupt, entry
absent (or falsy), entry date unparseable — it returns
`get_minimum_cursor` `("", "", date(1970,1,1), "")`.  It is a total
function: no input makes it raise. -/
theorem C8_cursor_load_recovery (partition : String) (fs : FileState) :
    (∀ entries e d, fs = .valid entries →
      List.lookup partition entries = some (.entry e) →
      parseDate (e.dateStr.getD "1970-01-01") = some d →
      load_cursor partition fs =
        (e.project_id.getD "", e.obs_type.getD "", d, e.obs_id.getD "")) ∧
    ((fs = .missing ∨ fs = .corrupt ∨
      (∃ entries, fs = .valid entries ∧
        (List.lookup partition entries = none ∨
          List.lookup partition entries = some .emptyObj ∨
          (∃ e, List.lookup partition entries = some (.entry e) ∧
            parseDate (e.dateStr.getD "1970-01-01") = none)))) →
      load_cursor partition fs = get_minimum_cursor) := by
  constructor
  · intro entries e d hfs hlook hdate
    subst hfs
    simp [load_cursor, hlook, hdate]
  · intro h
    rcases h with rfl | rfl | ⟨entries, rfl, hcase⟩
    · rfl
    · rfl
    · rcases hcase with hnone | hempty | ⟨e, hlook, hdate⟩
      · simp [load_cursor, hnone]
      · simp [load_cursor, hempty]
      · simp [load_cursor, hlook, hdate]


/-- C8, witness: a parsed file with a usable entry yields that cursor; a
missing file, a falsy entry, a corrupt file, and an entry whose date
string `"70-01-01"` does not parse (two-digit year) all yield the minimum
cursor. -/
theorem C8_cursor_load_recovery_witness :
    load_cursor "202406" (.valid cursorFileEntriesW) =
      ("p", "GENERATION", ⟨2024, 6, 5⟩, "obs9") ∧
    load_cursor "202406" .missing = get_minimum_cursor ∧
    load_cursor "202312" (.valid cursorFileEntriesW) = get_minimum_cursor ∧
    load_cursor "202406" .corrupt = get_minimum_cursor ∧
    load_cursor "202501" (.valid [("202501", .entry badDateEntryW)]) =
      get_minimum_cursor :=
  ⟨(C8_cursor_load_recovery "202406" (.valid cursorFileEntriesW)).1
      cursorFileEntriesW cursorEntryW ⟨2024, 6, 5⟩ rfl (by decide) (by decide),
    (C8_cursor_load_recovery "202406" .missing).2 (Or.inl rfl),
    (C8_cursor_load_recovery "202312" (.valid cursorFileEntriesW)).2
      (Or.inr (Or.inr ⟨cursorFileEntriesW, rfl, Or.inr (Or.inl (by decide))⟩)),
    (C8_cursor_load_recovery "202406" .corrupt).2 (Or.inr (Or.inl rfl)),
    (C8_cursor_load_recovery "202501" (.valid [("202501", .entry badDateEntryW)])).2
      (Or.inr (Or.inr ⟨[("202501", .entry badDateEntryW)], rfl,
        Or.inr (Or.inr ⟨badDateEntryW, by decide, by decide⟩)⟩))⟩

/-- C9: starting from a file holding a valid mapping `M`, a successful
`save_cursor` writes `M` with exactly the entry of `partition` replaced by
the new cursor record (all four components plus the `updated_at`
timestamp); every other partition's entry — and their order — is
preserved; and a failed write persists nothing and does not raise (the
function returns normally). -/
theorem C9_cursor_save_frame (partition : String) (c : CursorTuple) (now : String)
    (fs : FileState) (write_ok : Bool) (M : List (String × EntryVal))
    (hM : fs = .valid M) :
    (write_ok = true →
      ∃ M', save_cursor partition c now fs write_ok = some M' ∧
        List.lookup partition M' = some (.entry (entryOfCursor c now)) ∧
        (∀ q, q ≠ partition → List.lookup q M' = List.lookup q M) ∧
        M'.filter (fun kv => decide (kv.1 ≠ partition)) =
          M.filter (fun kv => decide (kv.1 ≠ partition))) ∧
    (write_ok = false → save_cursor partition c now fs write_ok = none) := by
  subst hM
  constructor
  · intro hw
    subst hw
    refine ⟨upsertEntry M partition (.entry (entryOfCursor c now)), rfl, ?_, ?_, ?_⟩
    · exact lookup_upsert_self M partition _
    · intro q hq
      exact lookup_upsert_other M partition _ q hq
    · exact filter_upsert_ne M partition _
  · intro hw
    subst hw
    rfl

/-- C9, witness: saving a cursor for partition `"202406"` into the
two-partition file preserves the `"202312"` entry. -/
theorem C9_cursor_save_frame_witness :
    (∃ M', save_cursor "202406" ("p", "G", ⟨2024, 6, 5⟩, "z") "now"
        (.valid cursorFileEntriesW) true = some M' ∧
      List.lookup "202406" M' =
        some (.entry (entryOfCursor ("p", "G", ⟨2024, 6, 5⟩, "z") "now")) ∧
      (∀ q, q ≠ "202406" → List.lookup q M' = List.lookup q cursorFileEntriesW) ∧
      M'.filter (fun kv => decide (kv.1 ≠ "202406")) =
        cursorFileEntriesW.filter (fun kv => decide (kv.1 ≠ "202406"))) ∧
    save_cursor "202406" ("p", "G", ⟨2024, 6, 5⟩, "z") "now"
      (.valid cursorFileEntriesW) false = none :=
  ⟨(C9_cursor_save_frame "202406" ("p", "G", ⟨2024, 6, 5⟩, "z") "now"
      (.valid cursorFileEntriesW) true cursorFileEntriesW rfl).1 rfl,
    (C9_cursor_save_frame "202406" ("p", "G", ⟨2024, 6, 5⟩, "z") "now"
      (.valid cursorFileEntriesW) false cursorFileEntriesW rfl).2 rfl⟩
